import Mathlib

set_option maxRecDepth 40000

/-!
Verification of the invoice-analyzer application (`app.py`).

The development shallow-embeds the meaningful logic of the program:
the two record schemas (`InvoiceItem`, `InvoiceDetails`), the
three-strategy JSON extractor (`_extract_json` and its helper methods),
the pydantic-style validation performed by `InvoiceDetails(**mapping)`,
and the orchestration of `analyze_invoice` including its
exception-handling structure.  Text is represented as `List Char`;
`json.loads` is embedded as a total, fuel-indexed parser returning
`Except`; Python exceptions are represented by the `PyErr` error type.
Numbers never undergo arithmetic in the program (they are only parsed
and stored), so JSON/Python numbers are modelled exactly by `PyFloat`
(a rational together with the special values produced by the parsers).
-/

/-- Kinds of Python exceptions that the analyzed code can raise or catch.
`validationError` is pydantic's `ValidationError`; the other kinds are only
distinguished from it because `analyze_invoice` catches `ValidationError`
in a separate clause. -/
inductive PyErr where
  | validationError
  | jsonDecodeError
  | typeError
  | genericError
deriving DecidableEq, Repr

/-- Euclid's algorithm with explicit fuel (any fuel above the first
argument's size gives the gcd); the fuel only serves termination and keeps
every arithmetic step kernel-computable. -/
def fgcd : Nat → Nat → Nat → Nat
  | 0, _, n => n
  | _ + 1, 0, n => n
  | f + 1, m, n => fgcd f (n % m) m

/-- An exact rational in lowest terms with positive denominator, used to
represent the numeric values flowing through the program. -/
structure Dec where
  num : Int
  den : Nat
deriving DecidableEq, Repr

/-- Construct a `Dec` in lowest terms from a numerator and denominator. -/
def Dec.normalize (n : Int) (d : Nat) : Dec :=
  let g := fgcd (n.natAbs + 1) n.natAbs d
  if g = 0 then ⟨0, 1⟩ else ⟨n / (g : Int), d / g⟩

instance (n : Nat) : OfNat Dec n := ⟨⟨n, 1⟩⟩

instance : Neg Dec := ⟨fun q => ⟨-q.num, q.den⟩⟩

/-- Build the value `(±mant / 10^scale) · 10^ex` in lowest terms: the form
in which decimal literals are read by the parsers below. -/
def decFromParts (neg : Bool) (mant : Nat) (scale : Nat) (ex : Int) : Dec :=
  let n : Int := if neg then -(mant : Int) else (mant : Int)
  if 0 ≤ ex then Dec.normalize (n * ((10 : Int) ^ ex.toNat)) (10 ^ scale)
  else Dec.normalize n (10 ^ (scale + (-ex).toNat))

/-- Model of a Python number: `json.loads` produces `int`/`float` values and
`float(str)` can additionally produce infinities and NaN.  The program never
computes with these numbers (they are parsed, stored and compared only), so
an exact rational plus the special values is a faithful representation;
Python's `2 == 2.0` means a merged representation preserves equality. -/
inductive PyFloat where
  | finite : Dec → PyFloat
  | inf
  | neginf
  | nan
deriving DecidableEq, Repr

/-- Model of a Python value produced by `json.loads`: `None`, `bool`,
numbers, `str`, `list`, `dict` (an insertion-ordered association list whose
keys are unique because the parser resolves duplicates with last-wins, as
Python dict construction does). -/
inductive Json where
  | null
  | bool (b : Bool)
  | num (x : PyFloat)
  | str (s : List Char)
  | arr (l : List Json)
  | obj (l : List (List Char × Json))

/-- Python truthiness (`if json_dict:`) for the values `json.loads` returns:
empty dict/list/str, `0`, `False` and `None` are falsy, everything else
(including NaN and infinities) is truthy. -/
def truthy : Json → Bool
  | .null => false
  | .bool b => b
  | .num (.finite q) => decide (q.num ≠ 0)
  | .num _ => true
  | .str s => !s.isEmpty
  | .arr l => !l.isEmpty
  | .obj l => !l.isEmpty

/-- Whether a value is a mapping (a Python `dict`). -/
def Json.isObj : Json → Bool
  | .obj _ => true
  | _ => false

/-- JSON whitespace as accepted by Python's `json.loads`. -/
def isJsonWs (c : Char) : Bool :=
  c = ' ' || c = '\t' || c = '\n' || c = '\r'

/-- Skip JSON whitespace. -/
def skipWs (s : List Char) : List Char :=
  s.dropWhile isJsonWs

/-- Numeric value of a decimal digit string. -/
def digitsToNat (ds : List Char) : Nat :=
  ds.foldl (fun a c => a * 10 + (c.toNat - 48)) 0

/-- Value of a hexadecimal digit, if any. -/
def hexVal (c : Char) : Option Nat :=
  if '0' ≤ c ∧ c ≤ '9' then some (c.toNat - 48)
  else if 'a' ≤ c ∧ c ≤ 'f' then some (c.toNat - 87)
  else if 'A' ≤ c ∧ c ≤ 'F' then some (c.toNat - 55)
  else none

/-- Read exactly four hex digits (the `XXXX` of a `\uXXXX` escape). -/
def parseHex4 (s : List Char) : Option (Nat × List Char) :=
  match s with
  | a :: b :: c :: d :: rest => do
    let x ← hexVal a
    let y ← hexVal b
    let z ← hexVal c
    let w ← hexVal d
    some (((x * 16 + y) * 16 + z) * 16 + w, rest)
  | _ => none

/-- Body of a JSON string literal, after the opening quote: returns the
decoded characters and the remainder after the closing quote.  Mirrors
Python's strict mode: raw control characters below 0x20 and invalid escapes
are errors.  `\uXXXX` surrogate pairs are combined; a lone surrogate is
rejected here (Python would keep it as a lone surrogate code unit, a value
that cannot inhabit `Char`; no analyzed input contains one).  The fuel
argument only serves termination and any value `≥ length + 1` is enough. -/
def parseStringBody : Nat → List Char → Option (List Char × List Char)
  | 0, _ => none
  | _, [] => none
  | f + 1, c :: rest =>
    if c = '"' then some ([], rest)
    else if c = '\\' then
      match rest with
      | [] => none
      | e :: r2 =>
        let simpleEsc : Option Char :=
          if e = '"' then some '"'
          else if e = '\\' then some '\\'
          else if e = '/' then some '/'
          else if e = 'b' then some (Char.ofNat 8)
          else if e = 'f' then some (Char.ofNat 12)
          else if e = 'n' then some '\n'
          else if e = 'r' then some '\r'
          else if e = 't' then some '\t'
          else none
        match simpleEsc with
        | some d => (parseStringBody f r2).map (fun p => (d :: p.1, p.2))
        | none =>
          if e = 'u' then
            match parseHex4 r2 with
            | some (n, r3) =>
              if n < 0xD800 ∨ 0xDFFF < n then
                (parseStringBody f r3).map (fun p => (Char.ofNat n :: p.1, p.2))
              else if n < 0xDC00 then
                match r3 with
                | '\\' :: 'u' :: r4 =>
                  match parseHex4 r4 with
                  | some (m, r5) =>
                    if 0xDC00 ≤ m ∧ m ≤ 0xDFFF then
                      (parseStringBody f r5).map
                        (fun p =>
                          (Char.ofNat (0x10000 + (n - 0xD800) * 0x400 + (m - 0xDC00)) :: p.1,
                           p.2))
                    else none
                  | none => none
                | _ => none
              else none
            | none => none
          else none
    else if c.toNat < 32 then none
    else (parseStringBody f rest).map (fun p => (c :: p.1, p.2))

/-- Match an expected literal continuation (for `true`, `false`, `null`,
`NaN`, `Infinity`). -/
def expectLit (pat s : List Char) : Option (List Char) :=
  if pat.isPrefixOf s then some (s.drop pat.length) else none

/-- A JSON number token, per the grammar used by Python's `json` module:
`-?(0|[1-9][0-9]*)(\.[0-9]+)?([eE][-+]?[0-9]+)?`.  The optional parts are
only consumed when complete (`1.`, `1e` leave the `.`/`e` unconsumed, which
the caller then reports as an error — exactly the regex behaviour).
The exact rational value is computed; Python would round to the nearest
binary float (and overflow to inf), a difference that is immaterial here
because the program performs no arithmetic on the parsed numbers. -/
def parseNumber (s : List Char) : Option (PyFloat × List Char) :=
  let (neg, s1) := match s with
    | '-' :: r => (true, r)
    | _ => (false, s)
  match s1 with
  | [] => none
  | c :: _ =>
    if ¬ c.isDigit then none
    else
      let (intDs, r1) :=
        if c = '0' then ([c], s1.drop 1)
        else (s1.takeWhile Char.isDigit, s1.dropWhile Char.isDigit)
      let (fracDs, r2) :=
        match r1 with
        | '.' :: r2a =>
          let fds := r2a.takeWhile Char.isDigit
          if fds.isEmpty then (([] : List Char), r1)
          else (fds, r2a.dropWhile Char.isDigit)
        | _ => (([] : List Char), r1)
      let (expVal, r3) :=
        match r2 with
        | e :: r3a =>
          if e = 'e' ∨ e = 'E' then
            let (esign, r4) := match r3a with
              | '+' :: r4a => ((1 : Int), r4a)
              | '-' :: r4a => ((-1 : Int), r4a)
              | _ => ((1 : Int), r3a)
            let eds := r4.takeWhile Char.isDigit
            if eds.isEmpty then ((0 : Int), r2)
            else (esign * (digitsToNat eds : Int), r4.dropWhile Char.isDigit)
          else ((0 : Int), r2)
        | _ => ((0 : Int), r2)
      some (.finite (decFromParts neg (digitsToNat (intDs ++ fracDs)) fracDs.length expVal), r3)

/-- Insert a key/value pair into the association list representing a dict,
with Python's semantics for duplicate keys: the value is updated in place,
otherwise the pair is appended (insertion order preserved). -/
def insertKV (kvs : List (List Char × Json)) (k : List Char) (v : Json) :
    List (List Char × Json) :=
  match kvs with
  | [] => [(k, v)]
  | (k1, v1) :: rest =>
    if k1 = k then (k1, v) :: rest else (k1, v1) :: insertKV rest k v

mutual

/-- A JSON value, mirroring the recursive-descent structure of Python's
`json.loads` (with its non-standard `NaN`/`Infinity`/`-Infinity` constants).
Returns the parsed value and the unconsumed remainder.  The fuel argument
only serves termination; each nested call consumes at least one character,
so any fuel `≥ length + 1` gives the parser's fixed behaviour. -/
def parseValue : Nat → List Char → Option (Json × List Char)
  | 0, _ => none
  | f + 1, s =>
    match skipWs s with
    | [] => none
    | '\x7b' :: r =>
      (match skipWs r with
       | '\x7d' :: r2 => some (Json.obj [], r2)
       | _ => (parseMembers f r []).map (fun p => (Json.obj p.1, p.2)))
    | '[' :: r =>
      (match skipWs r with
       | ']' :: r2 => some (Json.arr [], r2)
       | _ => (parseElements f r []).map (fun p => (Json.arr p.1, p.2)))
    | '"' :: r => (parseStringBody (r.length + 1) r).map (fun p => (Json.str p.1, p.2))
    | 't' :: r => (expectLit ("rue".data) r).map (fun r2 => (Json.bool true, r2))
    | 'f' :: r => (expectLit ("alse".data) r).map (fun r2 => (Json.bool false, r2))
    | 'n' :: r => (expectLit ("ull".data) r).map (fun r2 => (Json.null, r2))
    | 'N' :: r => (expectLit ("aN".data) r).map (fun r2 => (Json.num .nan, r2))
    | 'I' :: r => (expectLit ("nfinity".data) r).map (fun r2 => (Json.num .inf, r2))
    | '-' :: r =>
      if ("Infinity".data).isPrefixOf r then some (Json.num .neginf, r.drop 8)
      else (parseNumber ('-' :: r)).map (fun p => (Json.num p.1, p.2))
    | c :: r =>
      if c.isDigit then (parseNumber (c :: r)).map (fun p => (Json.num p.1, p.2))
      else none

/-- The members of a JSON object, after the opening brace (first member not
yet consumed).  Builds the dict with `insertKV`, i.e. last duplicate wins. -/
def parseMembers : Nat → List Char → List (List Char × Json) →
    Option (List (List Char × Json) × List Char)
  | 0, _, _ => none
  | f + 1, s, acc =>
    match skipWs s with
    | '"' :: r =>
      (match parseStringBody (r.length + 1) r with
       | none => none
       | some (key, r1) =>
         match skipWs r1 with
         | ':' :: r2 =>
           (match parseValue f r2 with
            | none => none
            | some (v, r3) =>
              match skipWs r3 with
              | ',' :: r4 => parseMembers f r4 (insertKV acc key v)
              | '\x7d' :: r4 => some (insertKV acc key v, r4)
              | _ => none)
         | _ => none)
    | _ => none

/-- The elements of a JSON array, after the opening bracket (first element
not yet consumed). -/
def parseElements : Nat → List Char → List Json → Option (List Json × List Char)
  | 0, _, _ => none
  | f + 1, s, acc =>
    match parseValue f s with
    | none => none
    | some (v, r) =>
      match skipWs r with
      | ',' :: r2 => parseElements f r2 (acc ++ [v])
      | ']' :: r2 => some (acc ++ [v], r2)
      | _ => none

end

/-- Model of `json.loads`: parse one JSON value and require that only
whitespace remains; any failure raises `json.JSONDecodeError`. -/
def json_loads (s : List Char) : Except PyErr Json :=
  match parseValue (s.length + 1) s with
  | some (v, rest) => if (skipWs rest).isEmpty then .ok v else .error .jsonDecodeError
  | none => .error .jsonDecodeError

/-- Index of the first occurrence of a character, as used by `str.find`. -/
def firstIdx (c : Char) : List Char → Option Nat
  | [] => none
  | x :: xs => if x = c then some 0 else (firstIdx c xs).map (· + 1)

/-- Index of the last occurrence of a character, as used by `str.rfind`. -/
def lastIdx (c : Char) : List Char → Option Nat
  | [] => none
  | x :: xs =>
    match lastIdx c xs with
    | some i => some (i + 1)
    | none => if x = c then some 0 else none

/-- Python `text.find(c)`: index of the first occurrence, `-1` if absent. -/
def pyFind (t : List Char) (c : Char) : Int :=
  match firstIdx c t with
  | some i => (i : Int)
  | none => -1

/-- Python `text.rfind(c)`: index of the last occurrence, `-1` if absent. -/
def pyRfind (t : List Char) (c : Char) : Int :=
  match lastIdx c t with
  | some i => (i : Int)
  | none => -1

/-- Python slice `t[a:b]` for the index values reachable in this program:
`_extract_json_between_brackets` only slices with `a = find(..) ≥ 0` (the
guard excludes `-1`) and `b = rfind(..) + 1 ≥ 0`, where non-negative Python
slicing is take-then-drop. -/
def pySlice (t : List Char) (a b : Int) : List Char :=
  (t.take b.toNat).drop a.toNat

/-- First index at which `pat` occurs as a contiguous substring. -/
def findSubIdx (pat : List Char) : List Char → Option Nat
  | [] => if pat.isEmpty then some 0 else none
  | t@(_ :: rest) =>
    if pat.isPrefixOf t then some 0 else (findSubIdx pat rest).map (· + 1)

/-- Whether `pat` occurs as a contiguous substring. -/
def hasSubstr (pat : List Char) : List Char → Bool
  | [] => pat.isEmpty
  | t@(_ :: rest) => pat.isPrefixOf t || hasSubstr pat rest

/-- The opening fence required by `_extract_json_with_codeblock`'s regex:
the literal characters of `` ```json `` followed immediately by a newline. -/
def fenceOpen : List Char := "```json\n".data

/-- The closing fence `` ``` ``. -/
def ticks : List Char := "```".data

/-- Model of `re.search(r'\x7b.*?\x7d', text, re.DOTALL)`: the leftmost
match starts at the first `{` that has some `}` after it (which, when a
match exists at all, is the first `{` of the text), and lazy `.*?` ends it
at the first following `}`. -/
def regexSearchBrace (text : List Char) : Option (List Char) :=
  match firstIdx '\x7b' text with
  | none => none
  | some i =>
    match firstIdx '\x7d' (text.drop (i + 1)) with
    | none => none
    | some k => some ('\x7b' :: ((text.drop (i + 1)).take k ++ ['\x7d']))

/-- Model of `re.search(r'```json\n(.*?)```', text, re.DOTALL)`, returning
group 1: scanning left to right, a match starts at the first position where
the text carries the literal opening fence and some closing ``` ``` ``
occurs after it; the lazy group ends at the earliest such closing fence. -/
def fenceSearch : List Char → Option (List Char)
  | [] => none
  | t@(_ :: rest) =>
    if fenceOpen.isPrefixOf t then
      match findSubIdx ticks (t.drop 8) with
      | some q => some ((t.drop 8).take q)
      | none => fenceSearch rest
    else fenceSearch rest

/-- Strategy 1, `_extract_json_between_brackets`: substring from the first
`{` to the last `}` (inclusive), parsed with `json.loads`; if the guard
fails, returns the empty dict.  Note Python's `end = rfind + 1` is `0`, not
`-1`, when no `}` exists, so the `end != -1` conjunct never rejects. -/
def _extract_json_between_brackets (text : List Char) : Except PyErr Json :=
  let start := pyFind text '\x7b'
  let stop := pyRfind text '\x7d' + 1
  if start ≠ -1 ∧ stop ≠ -1 then json_loads (pySlice text start stop)
  else .ok (Json.obj [])

/-- Strategy 2, `_extract_json_with_regex`: lazy brace-span regex search,
parsed with `json.loads`; empty dict when there is no match. -/
def _extract_json_with_regex (text : List Char) : Except PyErr Json :=
  match regexSearchBrace text with
  | some frag => json_loads frag
  | none => .ok (Json.obj [])

/-- Strategy 3, `_extract_json_with_codeblock`: fenced ```` ```json ````
markdown block contents, parsed with `json.loads`; empty dict when there is
no match. -/
def _extract_json_with_codeblock (text : List Char) : Except PyErr Json :=
  match fenceSearch text with
  | some content => json_loads content
  | none => .ok (Json.obj [])

/-- One iteration of `_extract_json`'s loop: run a method inside `try`; an
exception is swallowed (`continue`), and a falsy result (`if json_dict:`
failing) also moves on to the next method. -/
def tryMethod (method : List Char → Except PyErr Json) (text : List Char) : Option Json :=
  match method text with
  | .ok v => if truthy v then some v else none
  | .error _ => none

/-- The extractor `_extract_json`: the three methods in their list order,
first truthy result wins; when all fail the warning is emitted and the
empty dict is returned.  The result type is `Except` to make "never raises"
a provable statement rather than a typing convention. -/
def _extract_json (text : List Char) : Except PyErr Json :=
  match tryMethod _extract_json_between_brackets text with
  | some v => .ok v
  | none =>
    match tryMethod _extract_json_with_regex text with
    | some v => .ok v
    | none =>
      match tryMethod _extract_json_with_codeblock text with
      | some v => .ok v
      | none => .ok (Json.obj [])

/-- The value `_extract_json` returns (it is proved below to always be an
`ok`). -/
def extractVal (text : List Char) : Json :=
  match _extract_json text with
  | .ok v => v
  | .error _ => Json.obj []

/-- Specification-side combinator: an ordered list of strategies, first
success wins, where a strategy succeeds exactly when it parses without
error to a truthy value; empty dict when none succeeds. -/
def firstTruthy (methods : List (List Char → Except PyErr Json)) (text : List Char) :
    Except PyErr Json :=
  match methods with
  | [] => .ok (Json.obj [])
  | m :: rest =>
    match m text with
    | .ok v => if truthy v then .ok v else firstTruthy rest text
    | .error _ => firstTruthy rest text

/-- Whether a strategy outcome is a failure for `_extract_json`'s loop:
either it raised, or its value is falsy. -/
def failsOrFalsy (r : Except PyErr Json) : Bool :=
  match r with
  | .ok v => !truthy v
  | .error _ => true

/-- The `InvoiceItem` record (a pydantic model with four required fields). -/
structure InvoiceItem where
  item_name : List Char
  quantity : PyFloat
  unit_price : PyFloat
  total_price : PyFloat
deriving DecidableEq, Repr

/-- The `InvoiceDetails` record (a pydantic model with six required fields). -/
structure InvoiceDetails where
  invoice_number : List Char
  vendor_name : List Char
  invoice_date : List Char
  total_amount : PyFloat
  tax_amount : PyFloat
  items : List InvoiceItem
deriving DecidableEq, Repr

/-- Dict lookup (keys are unique in parser-produced dicts). -/
def lookupKey (kvs : List (List Char × Json)) (k : List Char) : Option Json :=
  match kvs with
  | [] => none
  | (k1, v) :: rest => if k1 = k then some v else lookupKey rest k

/-- Python whitespace stripped by `float(str)`. -/
def isPySpace (c : Char) : Bool :=
  c = ' ' || c = '\t' || c = '\n' || c = '\r' || c = '\x0b' || c = '\x0c'

/-- Strip leading and trailing whitespace. -/
def trimPy (s : List Char) : List Char :=
  ((s.dropWhile isPySpace).reverse.dropWhile isPySpace).reverse

/-- Consume a run of decimal digits in which single underscores may appear
between digits (Python numeric-literal strings): returns the value, the
number of digits consumed, and the remainder. -/
def digitsU : List Char → Nat → Nat → (Nat × Nat × List Char)
  | [], acc, n => (acc, n, [])
  | '_' :: c :: rest, acc, n =>
    if n ≠ 0 ∧ c.isDigit then digitsU rest (acc * 10 + (c.toNat - 48)) (n + 1)
    else (acc, n, '_' :: c :: rest)
  | ['_'], acc, n => (acc, n, ['_'])
  | c :: rest, acc, n =>
    if c.isDigit then digitsU rest (acc * 10 + (c.toNat - 48)) (n + 1)
    else (acc, n, c :: rest)

/-- Model of Python's `float(str)` conversion, used by pydantic to coerce a
string into a `float` field: optional sign, `inf`/`infinity`/`nan`
(case-insensitive), or a decimal literal `digits[.digits][e[±]digits]`
(at least one digit, underscores allowed between digits), with surrounding
whitespace stripped; anything else raises `ValueError`. -/
def pyFloatOfString (s : List Char) : Option PyFloat :=
  let t := trimPy s
  let (neg, s1) := match t with
    | '+' :: r => (false, r)
    | '-' :: r => (true, r)
    | _ => (false, t)
  let low := s1.map Char.toLower
  if low = "inf".data ∨ low = "infinity".data then
    some (if neg then .neginf else .inf)
  else if low = "nan".data then some .nan
  else
    let (iv, ni, r1) := digitsU s1 0 0
    let (fv, nf, r2) :=
      match r1 with
      | '.' :: r2a =>
        let (fv, nf, r2b) := digitsU r2a 0 0
        (fv, nf, r2b)
      | _ => (0, 0, r1)
    let (ev, eok, r3) :=
      match r2 with
      | e :: r3a =>
        if e = 'e' ∨ e = 'E' then
          let (esign, r4) := match r3a with
            | '+' :: r4a => ((1 : Int), r4a)
            | '-' :: r4a => ((-1 : Int), r4a)
            | _ => ((1 : Int), r3a)
          let (evv, ne, r5) := digitsU r4 0 0
          if ne = 0 then ((0 : Int), false, r3a)
          else (esign * (evv : Int), true, r5)
        else ((0 : Int), true, r2)
      | [] => ((0 : Int), true, [])
    if ni + nf = 0 ∨ ¬ eok ∨ ¬ r3.isEmpty then none
    else some (.finite (decFromParts neg (iv * 10 ^ nf + fv) nf ev))

/-- Pydantic v1 validation of a `float` field: numbers pass through, bools
coerce to 0/1, strings are converted with `float(str)` and fail validation
when that raises; `None`, lists and dicts fail validation. -/
def validateFloat : Json → Except PyErr PyFloat
  | .num x => .ok x
  | .bool b => .ok (.finite (if b then 1 else 0))
  | .str s =>
    (match pyFloatOfString s with
     | some x => .ok x
     | none => .error .validationError)
  | _ => .error .validationError

/-- Pydantic validation of a `str` field for the JSON-derived values that
reach it: strings pass through, everything else fails.  (Pydantic v1 would
also coerce a number to its decimal representation; no analyzed property
depends on that coercion, and the exact representation string is a detail
of Python's float repr.) -/
def validateStr : Json → Except PyErr (List Char)
  | .str s => .ok s
  | _ => .error .validationError

/-- Fetch a required field: a missing key is a pydantic `ValidationError`. -/
def getField (kvs : List (List Char × Json)) (k : List Char) : Except PyErr Json :=
  match lookupKey kvs k with
  | some v => .ok v
  | none => .error .validationError

/-- Validation of one element of `items` against `InvoiceItem`: the element
must be a mapping with the four required fields of the right types. -/
def validateItem : Json → Except PyErr InvoiceItem
  | .obj kvs =>
    (match getField kvs ("item_name".data) with
     | .error e => .error e
     | .ok v1 =>
       match validateStr v1 with
       | .error e => .error e
       | .ok nm =>
         match getField kvs ("quantity".data) with
         | .error e => .error e
         | .ok v2 =>
           match validateFloat v2 with
           | .error e => .error e
           | .ok qt =>
             match getField kvs ("unit_price".data) with
             | .error e => .error e
             | .ok v3 =>
               match validateFloat v3 with
               | .error e => .error e
               | .ok up =>
                 match getField kvs ("total_price".data) with
                 | .error e => .error e
                 | .ok v4 =>
                   match validateFloat v4 with
                   | .error e => .error e
                   | .ok tp => .ok ⟨nm, qt, up, tp⟩)
  | _ => .error .validationError

/-- Validation of the elements of the `items` list in order; the first
failing element fails the whole validation. -/
def validateItemList : List Json → Except PyErr (List InvoiceItem)
  | [] => .ok []
  | x :: xs =>
    match validateItem x with
    | .error e => .error e
    | .ok i =>
      match validateItemList xs with
      | .error e => .error e
      | .ok rest => .ok (i :: rest)

/-- Pydantic validation of the `items : List[InvoiceItem]` field: the value
must be a list and every element must validate as an `InvoiceItem`. -/
def validateItems : Json → Except PyErr (List InvoiceItem)
  | .arr l => validateItemList l
  | _ => .error .validationError

/-- Model of `InvoiceDetails(**json_response)`: a non-mapping argument is a
`TypeError` from the `**` unpacking; a mapping is validated field by field
(extra keys are ignored, pydantic v1's default), and any missing required
field or type failure is a pydantic `ValidationError`. -/
def InvoiceDetails.validate : Json → Except PyErr InvoiceDetails
  | .obj kvs =>
    (match getField kvs ("invoice_number".data) with
     | .error e => .error e
     | .ok v1 =>
       match validateStr v1 with
       | .error e => .error e
       | .ok inv =>
         match getField kvs ("vendor_name".data) with
         | .error e => .error e
         | .ok v2 =>
           match validateStr v2 with
           | .error e => .error e
           | .ok ven =>
             match getField kvs ("invoice_date".data) with
             | .error e => .error e
             | .ok v3 =>
               match validateStr v3 with
               | .error e => .error e
               | .ok dat =>
                 match getField kvs ("total_amount".data) with
                 | .error e => .error e
                 | .ok v4 =>
                   match validateFloat v4 with
                   | .error e => .error e
                   | .ok tot =>
                     match getField kvs ("tax_amount".data) with
                     | .error e => .error e
                     | .ok v5 =>
                       match validateFloat v5 with
                       | .error e => .error e
                       | .ok tax =>
                         match getField kvs ("items".data) with
                         | .error e => .error e
                         | .ok v6 =>
                           match validateItems v6 with
                           | .error e => .error e
                           | .ok its => .ok ⟨inv, ven, dat, tot, tax, its⟩)
  | _ => .error .typeError

/-- The fixed fallback record built by `_get_default_invoice_details`. -/
def _get_default_invoice_details : InvoiceDetails :=
  ⟨"N/A".data, "Unknown Vendor".data, "2023-01-01".data, .finite 0, .finite 0,
   [⟨"Sample Item".data, .finite 0, .finite 0, .finite 0⟩]⟩

/-- The environment of one `analyze_invoice` call: the outcome of reading
and base64-encoding the uploaded image (`image_file.read()` can raise), and
the outcome of the remote `generate_content` call (the network call or the
`response.text` accessor can raise, otherwise the model's text is
returned).  Extraction and validation are deterministic functions of the
response text and are not part of the environment. -/
structure AnalyzerWorld where
  encodeResult : Except PyErr (List Char)
  modelResult : Except PyErr (List Char)

/-- Model of `encode_image`: whatever reading + base64-encoding the image
produces in this world (a raise or a payload string). -/
def encode_image (w : AnalyzerWorld) : Except PyErr (List Char) :=
  w.encodeResult

/-- Model of `analyze_invoice`.  `encode_image` runs before the `try`
block, so its exception propagates.  Inside `try`: remote call, extraction,
then validation; a `ValidationError` and any other exception are caught by
the two `except` clauses, both of which return the fixed default record. -/
def analyze_invoice (w : AnalyzerWorld) : Except PyErr InvoiceDetails :=
  match encode_image w with
  | .error e => .error e
  | .ok _base64Image =>
    let body : Except PyErr InvoiceDetails :=
      match w.modelResult with
      | .error e => .error e
      | .ok text =>
        match _extract_json text with
        | .error e => .error e
        | .ok j => InvoiceDetails.validate j
    match body with
    | .ok d => .ok d
    | .error .validationError => .ok _get_default_invoice_details
    | .error _ => .ok _get_default_invoice_details

/-- A value that cannot be interpreted as a number by a pydantic float
field: not a number, not a bool, and not a string accepted by `float`. -/
def nonNumericJson : Json → Bool
  | .num _ => false
  | .bool _ => false
  | .str s => (pyFloatOfString s).isNone
  | _ => true

/-- Whether one `items` element is a mapping carrying a non-numeric value
in one of its numeric fields. -/
def itemNumericBad : Json → Bool
  | .obj kvs =>
    (match lookupKey kvs ("quantity".data) with
     | some x => nonNumericJson x
     | none => false) ||
    (match lookupKey kvs ("unit_price".data) with
     | some x => nonNumericJson x
     | none => false) ||
    (match lookupKey kvs ("total_price".data) with
     | some x => nonNumericJson x
     | none => false)
  | _ => false

/-- The failure condition of the validation claim: the extracted mapping is
missing a required `InvoiceDetails` field, or carries a non-numeric value
in a numeric field (of the invoice or of one of its items). -/
def missingOrNonNumeric : Json → Bool
  | .obj kvs =>
    (lookupKey kvs ("invoice_number".data)).isNone ||
    (lookupKey kvs ("vendor_name".data)).isNone ||
    (lookupKey kvs ("invoice_date".data)).isNone ||
    (lookupKey kvs ("total_amount".data)).isNone ||
    (lookupKey kvs ("tax_amount".data)).isNone ||
    (lookupKey kvs ("items".data)).isNone ||
    (match lookupKey kvs ("total_amount".data) with
     | some x => nonNumericJson x
     | none => false) ||
    (match lookupKey kvs ("tax_amount".data) with
     | some x => nonNumericJson x
     | none => false) ||
    (match lookupKey kvs ("items".data) with
     | some (.arr l) => l.any itemNumericBad
     | _ => false)
  | _ => false

/-- The exact model response of end-to-end scenario 1. -/
def scenario1Text : List Char :=
  ("\x7b\"invoice_number\":\"INV-100\",\"vendor_name\":\"Acme\"," ++
   "\"invoice_date\":\"2024-03-01\",\"total_amount\":150.0,\"tax_amount\":10.0," ++
   "\"items\":[\x7b\"item_name\":\"Widget\",\"quantity\":2,\"unit_price\":70.0," ++
   "\"total_price\":140.0\x7d]\x7d").data

/-! ### Lemmas about the extractor's control flow -/

theorem tryMethod_none {m : List Char → Except PyErr Json} {t : List Char}
    (h : failsOrFalsy (m t) = true) : tryMethod m t = none := by
  unfold tryMethod
  unfold failsOrFalsy at h
  cases hm : m t with
  | ok v => rw [hm] at h; simp at h; simp [h]
  | error e => rfl

theorem tryMethod_some {m : List Char → Except PyErr Json} {t : List Char} {v : Json}
    (hm : m t = .ok v) (ht : truthy v = true) : tryMethod m t = some v := by
  unfold tryMethod
  rw [hm]
  simp [ht]

theorem extract_total (t : List Char) : ∃ v, _extract_json t = .ok v := by
  unfold _extract_json
  repeat' split
  all_goals exact ⟨_, rfl⟩

theorem extractVal_spec (t : List Char) : _extract_json t = .ok (extractVal t) := by
  obtain ⟨v, hv⟩ := extract_total t
  simp only [extractVal, hv]

theorem extract_first {t : List Char} {v : Json}
    (h : tryMethod _extract_json_between_brackets t = some v) :
    _extract_json t = .ok v := by
  unfold _extract_json
  rw [h]

theorem extract_third {t : List Char} {v : Json}
    (h1 : tryMethod _extract_json_between_brackets t = none)
    (h2 : tryMethod _extract_json_with_regex t = none)
    (h3 : tryMethod _extract_json_with_codeblock t = some v) :
    _extract_json t = .ok v := by
  unfold _extract_json
  rw [h1, h2, h3]

theorem extract_none {t : List Char}
    (h1 : tryMethod _extract_json_between_brackets t = none)
    (h2 : tryMethod _extract_json_with_regex t = none)
    (h3 : tryMethod _extract_json_with_codeblock t = none) :
    _extract_json t = .ok (Json.obj []) := by
  unfold _extract_json
  rw [h1, h2, h3]

/-! ### Lemmas about character searching -/

theorem firstIdx_eq_none {c : Char} {l : List Char} (h : c ∉ l) :
    firstIdx c l = none := by
  induction l with
  | nil => rfl
  | cons x xs ih =>
    simp only [List.mem_cons, not_or] at h
    simp [firstIdx, Ne.symm h.1, ih h.2]

theorem firstIdx_of_mem {c : Char} {l : List Char} (h : c ∈ l) :
    ∃ i, firstIdx c l = some i := by
  induction l with
  | nil => cases h
  | cons x xs ih =>
    by_cases hx : x = c
    · exact ⟨0, by simp [firstIdx, hx]⟩
    · have hxs : c ∈ xs := by
        rcases List.mem_cons.mp h with h1 | h1
        · exact absurd h1.symm hx
        · exact h1
      rcases ih hxs with ⟨i, hi⟩
      exact ⟨i + 1, by simp [firstIdx, hx, hi]⟩

theorem firstIdx_get {c : Char} {l : List Char} {i : Nat}
    (h : firstIdx c l = some i) : l.get? i = some c := by
  induction l generalizing i with
  | nil => cases h
  | cons x xs ih =>
    by_cases hx : x = c
    · simp [firstIdx, hx] at h
      simp [← h, hx]
    · simp [firstIdx, hx] at h
      rcases h with ⟨j, hj, rfl⟩
      simpa [List.get?] using ih hj

theorem firstIdx_append {c : Char} {l₁ l₂ : List Char} (h : c ∉ l₁) :
    firstIdx c (l₁ ++ l₂) = (firstIdx c l₂).map (fun j => l₁.length + j) := by
  induction l₁ with
  | nil =>
    rw [List.nil_append]
    cases h2 : firstIdx c l₂ <;> simp [h2]
  | cons x xs ih =>
    simp only [List.mem_cons, not_or] at h
    simp only [List.cons_append, firstIdx, List.append_eq]
    rw [if_neg (fun hh => h.1 hh.symm), ih h.2]
    cases firstIdx c l₂ with
    | none => rfl
    | some j => simp; omega

theorem lastIdx_eq_none {c : Char} {l : List Char} (h : c ∉ l) :
    lastIdx c l = none := by
  induction l with
  | nil => rfl
  | cons x xs ih =>
    simp only [List.mem_cons, not_or] at h
    simp [lastIdx, ih h.2, Ne.symm h.1]

theorem lastIdx_append_right_none {c : Char} {l₁ l₂ : List Char}
    (h : lastIdx c l₂ = none) : lastIdx c (l₁ ++ l₂) = lastIdx c l₁ := by
  induction l₁ with
  | nil => simp [lastIdx, h]
  | cons x xs ih => simp [lastIdx, ih]

theorem lastIdx_concat_self (c : Char) (l : List Char) :
    lastIdx c (l ++ [c]) = some l.length := by
  induction l with
  | nil => simp [lastIdx]
  | cons x xs ih => simp [lastIdx, ih]

theorem head?_drop_eq (l : List Char) (n : Nat) : (l.drop n).head? = l.get? n := by
  induction l generalizing n with
  | nil => cases n <;> rfl
  | cons x xs ih =>
    cases n with
    | zero => rfl
    | succ m => exact ih m

theorem get?_take_some {l : List Char} {n i : Nat} {c : Char}
    (h : (l.take n).get? i = some c) : l.get? i = some c := by
  induction l generalizing n i with
  | nil => cases n <;> cases h
  | cons x xs ih =>
    cases n with
    | zero => cases h
    | succ m =>
      cases i with
      | zero => simpa using h
      | succ j => simpa using ih (by simpa using h)

theorem slice_middle (l₁ l₂ l₃ : List Char) :
    ((l₁ ++ l₂ ++ l₃).take (l₁.length + l₂.length)).drop l₁.length = l₂ := by
  have h1 : l₁.length + l₂.length = (l₁ ++ l₂).length := (List.length_append _ _).symm
  rw [h1, List.take_left, List.drop_left]

/-! ### Lemmas about the fence and regex searches -/

theorem fenceSearch_none {t : List Char} (h : hasSubstr fenceOpen t = false) :
    fenceSearch t = none := by
  induction t with
  | nil => rfl
  | cons x xs ih =>
    unfold hasSubstr at h
    rw [Bool.or_eq_false_iff] at h
    unfold fenceSearch
    rw [h.1]
    exact ih h.2

theorem regexSearchBrace_none_no_open {t : List Char} (h : '\x7b' ∉ t) :
    regexSearchBrace t = none := by
  unfold regexSearchBrace
  rw [firstIdx_eq_none h]

theorem regexSearchBrace_none_no_close {t : List Char} (h : '\x7d' ∉ t) :
    regexSearchBrace t = none := by
  unfold regexSearchBrace
  cases h1 : firstIdx '\x7b' t with
  | none => rfl
  | some i =>
    have h2 : '\x7d' ∉ t.drop (i + 1) := fun hm => h (List.drop_subset _ _ hm)
    simp [firstIdx_eq_none h2]

/-! ### Lemmas about `json_loads` -/

theorem skipWs_cons_not {c : Char} {l : List Char} (h : isJsonWs c = false) :
    skipWs (c :: l) = c :: l := by
  simp [skipWs, List.dropWhile_cons, h]

theorem parseValue_brace_obj {f : Nat} {r : List Char} {v : Json} {rest : List Char}
    (h : parseValue (f + 1) ('\x7b' :: r) = some (v, rest)) :
    ∃ kvs, v = Json.obj kvs := by
  rw [parseValue, skipWs_cons_not (by decide)] at h
  simp only [] at h
  split at h
  · simp only [Option.some.injEq, Prod.mk.injEq] at h
    exact ⟨[], h.1.symm⟩
  · cases hm : parseMembers f r [] with
    | none => rw [hm] at h; cases h
    | some p =>
      rw [hm] at h
      simp only [Option.map, Option.some.injEq, Prod.mk.injEq] at h
      exact ⟨p.1, h.1.symm⟩

theorem json_loads_brace_obj {r : List Char} {v : Json}
    (h : json_loads ('\x7b' :: r) = .ok v) : ∃ kvs, v = Json.obj kvs := by
  unfold json_loads at h
  rw [List.length_cons] at h
  split at h
  next v0 rest hp =>
    split at h
    · exact (by injection h with h1; exact h1 ▸ parseValue_brace_obj hp)
    · cases h
  next => cases h

/-! ### Lemmas about validation -/

theorem getField_ok {kvs : List (List Char × Json)} {k : List Char} {v : Json}
    (h : getField kvs k = .ok v) : lookupKey kvs k = some v := by
  unfold getField at h
  cases h1 : lookupKey kvs k with
  | some w => rw [h1] at h; injection h with h2; rw [h2]
  | none => rw [h1] at h; cases h

theorem validateFloat_ok_nonNum {v : Json} {x : PyFloat}
    (h : validateFloat v = .ok x) : nonNumericJson v = false := by
  cases v with
  | num y => rfl
  | bool b => rfl
  | str s =>
    simp only [validateFloat] at h
    simp only [nonNumericJson]
    cases h2 : pyFloatOfString s with
    | some y => simp [h2]
    | none => rw [h2] at h; cases h
  | null => exact Except.noConfusion h
  | arr l => exact Except.noConfusion h
  | obj kvs => exact Except.noConfusion h

theorem validateItem_ok_bad {v : Json} {i : InvoiceItem}
    (h : validateItem v = .ok i) : itemNumericBad v = false := by
  cases v with
  | null => exact Except.noConfusion h
  | bool b => exact Except.noConfusion h
  | num y => exact Except.noConfusion h
  | str s => exact Except.noConfusion h
  | arr l => exact Except.noConfusion h
  | obj kvs =>
    simp only [validateItem] at h
    split at h
    · cases h
    rename_i v1 hg1
    split at h
    · cases h
    rename_i nm hs1
    split at h
    · cases h
    rename_i v2 hg2
    split at h
    · cases h
    rename_i qt hf2
    split at h
    · cases h
    rename_i v3 hg3
    split at h
    · cases h
    rename_i up hf3
    split at h
    · cases h
    rename_i v4 hg4
    split at h
    · cases h
    rename_i tp hf4
    simp only [itemNumericBad]
    rw [getField_ok hg2, getField_ok hg3, getField_ok hg4]
    simp [validateFloat_ok_nonNum hf2, validateFloat_ok_nonNum hf3,
          validateFloat_ok_nonNum hf4]

theorem validateItemList_ok {l : List Json} {is : List InvoiceItem}
    (h : validateItemList l = .ok is) : ∀ x ∈ l, itemNumericBad x = false := by
  induction l generalizing is with
  | nil => intro x hx; cases hx
  | cons y ys ih =>
    intro x hx
    simp only [validateItemList] at h
    split at h
    · cases h
    rename_i i hi
    split at h
    · cases h
    rename_i rest hrest
    rcases List.mem_cons.mp hx with rfl | hx2
    · exact validateItem_ok_bad hi
    · exact ih hrest x hx2

theorem validate_ok_not_bad {j : Json} {d : InvoiceDetails}
    (h : InvoiceDetails.validate j = .ok d) : missingOrNonNumeric j = false := by
  cases j with
  | null => rfl
  | bool b => rfl
  | num y => rfl
  | str s => rfl
  | arr l => rfl
  | obj kvs =>
    simp only [InvoiceDetails.validate] at h
    split at h
    · cases h
    rename_i v1 hg1
    split at h
    · cases h
    rename_i inv hs1
    split at h
    · cases h
    rename_i v2 hg2
    split at h
    · cases h
    rename_i ven hs2
    split at h
    · cases h
    rename_i v3 hg3
    split at h
    · cases h
    rename_i dat hs3
    split at h
    · cases h
    rename_i v4 hg4
    split at h
    · cases h
    rename_i tot hf4
    split at h
    · cases h
    rename_i v5 hg5
    split at h
    · cases h
    rename_i tax hf5
    split at h
    · cases h
    rename_i v6 hg6
    split at h
    · cases h
    rename_i its hv6
    simp only [missingOrNonNumeric]
    rw [getField_ok hg1, getField_ok hg2, getField_ok hg3, getField_ok hg4,
        getField_ok hg5, getField_ok hg6]
    have h4 := validateFloat_ok_nonNum hf4
    have h5 := validateFloat_ok_nonNum hf5
    cases v6 with
    | arr l =>
      have hall : ∀ x ∈ l, itemNumericBad x = false := validateItemList_ok hv6
      simp [h4, h5]
      exact fun x hx => hall x hx
    | null => exact Except.noConfusion hv6
    | bool b => exact Except.noConfusion hv6
    | num y => exact Except.noConfusion hv6
    | str s => exact Except.noConfusion hv6
    | obj kvs2 => exact Except.noConfusion hv6

/-! ### Lemmas about `analyze_invoice`'s control flow -/

theorem analyze_model_error (enc : List Char) (e : PyErr) :
    analyze_invoice ⟨.ok enc, .error e⟩ = .ok _get_default_invoice_details := by
  cases e <;> rfl

theorem analyze_ok_valid {enc t : List Char} {d : InvoiceDetails}
    (hv : InvoiceDetails.validate (extractVal t) = .ok d) :
    analyze_invoice ⟨.ok enc, .ok t⟩ = .ok d := by
  unfold analyze_invoice encode_image
  simp only []
  rw [extractVal_spec t]
  show (match InvoiceDetails.validate (extractVal t) with
        | .ok d => (.ok d : Except PyErr InvoiceDetails)
        | .error .validationError => .ok _get_default_invoice_details
        | .error _ => .ok _get_default_invoice_details) = _
  rw [hv]

theorem analyze_ok_invalid {enc t : List Char} {e : PyErr}
    (hv : InvoiceDetails.validate (extractVal t) = .error e) :
    analyze_invoice ⟨.ok enc, .ok t⟩ = .ok _get_default_invoice_details := by
  unfold analyze_invoice encode_image
  simp only []
  rw [extractVal_spec t]
  show (match InvoiceDetails.validate (extractVal t) with
        | .ok d => (.ok d : Except PyErr InvoiceDetails)
        | .error .validationError => .ok _get_default_invoice_details
        | .error _ => .ok _get_default_invoice_details) = _
  rw [hv]
  cases e <;> rfl

/-! ### Strategy-1 slice arithmetic -/

theorem bracket_strategy_embedded (pre mid post : List Char)
    (hpre : '\x7b' ∉ pre) (hpost : '\x7d' ∉ post) :
    _extract_json_between_brackets (pre ++ ('\x7b' :: (mid ++ ['\x7d'])) ++ post) =
      json_loads ('\x7b' :: (mid ++ ['\x7d'])) := by
  have hfind : pyFind (pre ++ ('\x7b' :: (mid ++ ['\x7d'])) ++ post) '\x7b'
      = (pre.length : Int) := by
    unfold pyFind
    rw [List.append_assoc, firstIdx_append hpre]
    simp [firstIdx]
  have hrfind : pyRfind (pre ++ ('\x7b' :: (mid ++ ['\x7d'])) ++ post) '\x7d'
      = ((pre.length + mid.length + 1 : Nat) : Int) := by
    unfold pyRfind
    rw [lastIdx_append_right_none (lastIdx_eq_none hpost)]
    have hform : pre ++ ('\x7b' :: (mid ++ ['\x7d'])) = (pre ++ '\x7b' :: mid) ++ ['\x7d'] := by
      simp
    rw [hform, lastIdx_concat_self]
    simp [Nat.add_assoc, Nat.add_comm, Nat.add_left_comm]
  simp only [_extract_json_between_brackets]
  rw [hfind, hrfind, if_pos ⟨by omega, by omega⟩]
  have hstop : ((pre.length + mid.length + 1 : Nat) : Int) + 1
      = ((pre.length + (mid.length + 2) : Nat) : Int) := by push_cast; ring
  rw [hstop]
  have hslice : pySlice (pre ++ ('\x7b' :: (mid ++ ['\x7d'])) ++ post)
      ((pre.length : Nat) : Int) ((pre.length + (mid.length + 2) : Nat) : Int)
      = '\x7b' :: (mid ++ ['\x7d']) := by
    unfold pySlice
    rw [Int.toNat_natCast, Int.toNat_natCast]
    have hlen : mid.length + 2 = ('\x7b' :: (mid ++ ['\x7d'])).length := by simp
    rw [hlen]
    exact slice_middle _ _ _
  rw [hslice]

theorem bracket_strategy_no_close {t : List Char} (hb : '\x7b' ∈ t) (hn : '\x7d' ∉ t) :
    pyRfind t '\x7d' = -1 ∧
      _extract_json_between_brackets t = .error .jsonDecodeError := by
  have hrf : pyRfind t '\x7d' = -1 := by
    unfold pyRfind
    rw [lastIdx_eq_none hn]
  refine ⟨hrf, ?_⟩
  obtain ⟨i, hi⟩ := firstIdx_of_mem hb
  have hfi : pyFind t '\x7b' = (i : Int) := by
    unfold pyFind
    rw [hi]
  simp only [_extract_json_between_brackets]
  rw [hfi, hrf, if_pos ⟨by omega, by omega⟩]
  have hslice : pySlice t (i : Int) (-1 + 1) = [] := by
    unfold pySlice
    norm_num
  rw [hslice]
  rfl

theorem bracket_ok_truthy_obj {t : List Char} {v : Json}
    (h : _extract_json_between_brackets t = .ok v) (ht : truthy v = true) :
    ∃ kvs, v = Json.obj kvs ∧ kvs ≠ [] := by
  simp only [_extract_json_between_brackets] at h
  split at h
  case isTrue hc =>
    obtain ⟨i, hi⟩ : ∃ i, firstIdx '\x7b' t = some i := by
      cases hfi : firstIdx '\x7b' t with
      | some i => exact ⟨i, rfl⟩
      | none =>
        exfalso
        apply hc.1
        unfold pyFind
        rw [hfi]
    cases hs : pySlice t (pyFind t '\x7b') (pyRfind t '\x7d' + 1) with
    | nil => rw [hs] at h; cases h
    | cons c cs =>
      have hhead : (pySlice t (pyFind t '\x7b') (pyRfind t '\x7d' + 1)).head? = some c := by
        rw [hs]; rfl
      have hc2 : t.get? i = some c := by
        unfold pySlice at hhead
        rw [head?_drop_eq] at hhead
        unfold pyFind at hhead
        rw [hi, Int.toNat_natCast] at hhead
        exact get?_take_some hhead
      have hcb : c = '\x7b' := by
        have h3 := firstIdx_get hi
        rw [hc2] at h3
        exact Option.some.inj h3
      subst hcb
      rw [hs] at h
      obtain ⟨kvs, hk⟩ := json_loads_brace_obj h
      refine ⟨kvs, hk, fun hnil => ?_⟩
      rw [hk, hnil] at ht
      exact absurd ht (by simp [truthy])
  case isFalse _hc =>
    injection h with h1
    rw [← h1] at ht
    exact absurd ht (by simp [truthy])

theorem regex_ok_truthy_obj {t : List Char} {v : Json}
    (h : _extract_json_with_regex t = .ok v) (ht : truthy v = true) :
    ∃ kvs, v = Json.obj kvs ∧ kvs ≠ [] := by
  simp only [_extract_json_with_regex] at h
  split at h
  case h_1 frag heq =>
    unfold regexSearchBrace at heq
    split at heq
    · cases heq
    rename_i i hi
    split at heq
    · cases heq
    rename_i k hk
    injection heq with h2
    rw [← h2] at h
    obtain ⟨kvs, hkv⟩ := json_loads_brace_obj h
    refine ⟨kvs, hkv, fun hnil => ?_⟩
    rw [hkv, hnil] at ht
    exact absurd ht (by simp [truthy])
  case h_2 heq =>
    injection h with h1
    rw [← h1] at ht
    exact absurd ht (by simp [truthy])

/-! ### The extractor as a first-success combinator -/

theorem firstTruthy_cons (m : List Char → Except PyErr Json)
    (rest : List (List Char → Except PyErr Json)) (t : List Char) :
    firstTruthy (m :: rest) t =
      (match tryMethod m t with
       | some v => .ok v
       | none => firstTruthy rest t) := by
  rw [firstTruthy]
  unfold tryMethod
  cases h : m t with
  | ok v => cases ht : truthy v <;> simp [ht]
  | error e => simp

theorem extract_eq_firstTruthy (t : List Char) :
    _extract_json t =
      firstTruthy [_extract_json_between_brackets, _extract_json_with_regex,
        _extract_json_with_codeblock] t := by
  rw [firstTruthy_cons, firstTruthy_cons, firstTruthy_cons]
  unfold _extract_json
  rfl

/-! ### All-strategies-fail forms -/

theorem extract_empty_of_parts {t : List Char}
    (hb : '\x7b' ∉ t) (hc : '\x7d' ∉ t) (hf : hasSubstr fenceOpen t = false) :
    _extract_json t = .ok (Json.obj []) := by
  have h1 : _extract_json_between_brackets t = .ok (Json.obj []) := by
    simp only [_extract_json_between_brackets]
    have hfi : pyFind t '\x7b' = -1 := by
      unfold pyFind
      rw [firstIdx_eq_none hb]
    rw [hfi, if_neg (by simp)]
  have h2 : _extract_json_with_regex t = .ok (Json.obj []) := by
    simp only [_extract_json_with_regex]
    rw [regexSearchBrace_none_no_open hb]
  have h3 : _extract_json_with_codeblock t = .ok (Json.obj []) := by
    simp only [_extract_json_with_codeblock]
    rw [fenceSearch_none hf]
  exact extract_none (tryMethod_none (by rw [h1]; rfl))
    (tryMethod_none (by rw [h2]; rfl)) (tryMethod_none (by rw [h3]; rfl))

/-! ### The claims -/

/-- C8: extraction is deterministic and idempotent — the extractor is a
pure function of the response text alone (it consults no other state), so
running it twice on equal texts yields identical output. -/
theorem extract_deterministic (t1 t2 : List Char) (h : t1 = t2) :
    _extract_json t1 = _extract_json t2 := by
  rw [h]

theorem extract_deterministic_witness :
    _extract_json ("hello world".data) = _extract_json ("hello world".data) :=
  extract_deterministic ("hello world".data) ("hello world".data) rfl

/-- C3 counterexample: the text `` ```json `` + newline + `7` + newline +
`` ``` `` contains no brace at all, yet `_extract_json` does not return the
empty mapping: the fenced-block strategy parses `7` and the truthiness
check accepts it, so the extractor returns the number `7`, which is not a
mapping. -/
theorem extract_fenced_scalar_counterexample :
    ('\x7b' ∉ ("```json\n7\n```".data) ∧ '\x7d' ∉ ("```json\n7\n```".data)) ∧
    _extract_json ("```json\n7\n```".data) = .ok (Json.num (.finite 7)) ∧
    Json.num (.finite 7) ≠ Json.obj [] :=
  ⟨by decide, rfl, fun h => Json.noConfusion h⟩

/-- C3 (amended): for every input text, `extract` never raises — every
parse failure inside a strategy is swallowed and the next strategy is
attempted — and for every text containing no brace-delimited content and no
fenced ```` ```json ```` block, all three strategies fail and `extract`
returns the empty mapping. -/
theorem extract_never_raises_and_empty_fallback :
    (∀ t, ∃ v, _extract_json t = .ok v) ∧
    (∀ t, '\x7b' ∉ t → '\x7d' ∉ t → hasSubstr fenceOpen t = false →
      _extract_json t = .ok (Json.obj [])) :=
  ⟨extract_total, fun _ hb hc hf => extract_empty_of_parts hb hc hf⟩

theorem extract_never_raises_and_empty_fallback_witness :
    _extract_json ("no json here at all".data) = .ok (Json.obj []) :=
  extract_never_raises_and_empty_fallback.2 ("no json here at all".data)
    (by decide) (by decide) (by decide)

/-- C4 counterexample: on `` ```json ``/`true`/`` ``` `` the first two
strategies fail, the fenced-block strategy parses the non-mapping value
`True`, and the truthiness test accepts it — so a strategy can "succeed"
with a result that is not a non-empty mapping. -/
theorem extract_fenced_bool_counterexample :
    failsOrFalsy (_extract_json_between_brackets ("```json\ntrue\n```".data)) = true ∧
    failsOrFalsy (_extract_json_with_regex ("```json\ntrue\n```".data)) = true ∧
    _extract_json ("```json\ntrue\n```".data) = .ok (Json.bool true) ∧
    Json.isObj (Json.bool true) = false :=
  ⟨rfl, rfl, rfl, rfl⟩

/-- C4 (amended): the extractor tries its three strategies in exactly the
order bracket-span, regex single-object, fenced code block, and returns the
result of the first strategy that succeeds, where a strategy succeeds
exactly when it parses without raising to a truthy value; a syntactically
valid but empty `{}` is falsy, so it causes the next strategy to be tried.
For the bracket-span and regex strategies a successful result is always a
non-empty mapping; only the fenced-block strategy can succeed with a
non-mapping JSON value. -/
theorem extract_strategy_order (t : List Char) :
    _extract_json t =
      firstTruthy [_extract_json_between_brackets, _extract_json_with_regex,
        _extract_json_with_codeblock] t ∧
    truthy (Json.obj []) = false ∧
    (∀ v, _extract_json_between_brackets t = .ok v → truthy v = true →
      ∃ kvs, v = Json.obj kvs ∧ kvs ≠ []) ∧
    (∀ v, _extract_json_with_regex t = .ok v → truthy v = true →
      ∃ kvs, v = Json.obj kvs ∧ kvs ≠ []) :=
  ⟨extract_eq_firstTruthy t, rfl, fun _ h ht => bracket_ok_truthy_obj h ht,
   fun _ h ht => regex_ok_truthy_obj h ht⟩

theorem extract_strategy_order_witness :
    ∃ kvs, Json.obj [("a".data, Json.num (.finite 1))] = Json.obj kvs ∧ kvs ≠ [] :=
  (extract_strategy_order ("\x7b\"a\":1\x7d".data)).2.2.1
    (Json.obj [("a".data, Json.num (.finite 1))]) rfl rfl

/-- C5: for every text consisting of a single well-formed non-empty JSON
object embedded in brace-free prose, the extractor returns exactly that
object, and it is recovered by strategy 1: the substring from the first `{`
to the last `}` (inclusive) is the object and parses as it. -/
theorem extract_single_object_in_prose (pre mid post : List Char)
    (kvs : List (List Char × Json))
    (hpre1 : '\x7b' ∉ pre) (hpre2 : '\x7d' ∉ pre)
    (hpost1 : '\x7b' ∉ post) (hpost2 : '\x7d' ∉ post)
    (hparse : json_loads ('\x7b' :: (mid ++ ['\x7d'])) = .ok (Json.obj kvs))
    (hne : kvs ≠ []) :
    _extract_json_between_brackets (pre ++ ('\x7b' :: (mid ++ ['\x7d'])) ++ post)
      = .ok (Json.obj kvs) ∧
    _extract_json (pre ++ ('\x7b' :: (mid ++ ['\x7d'])) ++ post) = .ok (Json.obj kvs) := by
  have h1 : _extract_json_between_brackets (pre ++ ('\x7b' :: (mid ++ ['\x7d'])) ++ post)
      = .ok (Json.obj kvs) := by
    rw [bracket_strategy_embedded pre mid post hpre1 hpost2, hparse]
  refine ⟨h1, extract_first (tryMethod_some h1 ?_)⟩
  cases kvs with
  | nil => exact absurd rfl hne
  | cons a as => rfl

theorem extract_single_object_in_prose_witness :
    _extract_json
        ("Sure: ".data ++ ('\x7b' :: ("\"a\":1".data ++ ['\x7d'])) ++ " done.".data)
      = .ok (Json.obj [("a".data, Json.num (.finite 1))]) :=
  (extract_single_object_in_prose "Sure: ".data ("\"a\":1".data) " done.".data
    [("a".data, Json.num (.finite 1))]
    (by decide) (by decide) (by decide) (by decide) rfl (by simp)).2

/-- C6 counterexample: on a text with two unrelated brace fragments
followed by a well-formed fenced `` ```json `` block, strategy 1's span
fails to parse, but the extractor does not recover the fenced object: the
regex strategy matches the first fragment, parses it and wins first, so the
extractor returns that fragment, not the fenced block. -/
theorem extract_regex_preempts_codeblock :
    failsOrFalsy (_extract_json_between_brackets
      (("\x7b\"a\":1\x7d x \x7b\"b\":2\x7d\n```json\n\x7b\"c\":3\x7d\n```").data)) = true ∧
    _extract_json_with_codeblock
        (("\x7b\"a\":1\x7d x \x7b\"b\":2\x7d\n```json\n\x7b\"c\":3\x7d\n```").data)
      = .ok (Json.obj [("c".data, Json.num (.finite 3))]) ∧
    _extract_json (("\x7b\"a\":1\x7d x \x7b\"b\":2\x7d\n```json\n\x7b\"c\":3\x7d\n```").data)
      = .ok (Json.obj [("a".data, Json.num (.finite 1))]) ∧
    Json.obj [("a".data, Json.num (.finite 1))]
      ≠ Json.obj [("c".data, Json.num (.finite 3))] := by
  refine ⟨rfl, rfl, rfl, fun h => ?_⟩
  have h2 := congrArg
    (fun j => match j with | Json.obj ((k, _) :: _) => some k | _ => none) h
  exact absurd h2 (by decide)

/-- C6 (amended): for every input text on which both the bracket-span
strategy and the regex strategy fail to parse or yield a falsy value, if a
fenced `` ```json `` block parses to a well-formed non-empty JSON object
then the extractor returns that object, recovered by strategy 3. -/
theorem extract_codeblock_when_earlier_strategies_fail (t : List Char)
    (kvs : List (List Char × Json))
    (h1 : failsOrFalsy (_extract_json_between_brackets t) = true)
    (h2 : failsOrFalsy (_extract_json_with_regex t) = true)
    (h3 : _extract_json_with_codeblock t = .ok (Json.obj kvs)) (hne : kvs ≠ []) :
    _extract_json t = .ok (Json.obj kvs) := by
  refine extract_third (tryMethod_none h1) (tryMethod_none h2) (tryMethod_some h3 ?_)
  cases kvs with
  | nil => exact absurd rfl hne
  | cons a as => rfl

theorem extract_codeblock_when_earlier_strategies_fail_witness :
    _extract_json (("\x7boops\x7d ```json\n\x7b\"c\":3\x7d\n```").data)
      = .ok (Json.obj [("c".data, Json.num (.finite 3))]) :=
  extract_codeblock_when_earlier_strategies_fail
    (("\x7boops\x7d ```json\n\x7b\"c\":3\x7d\n```").data)
    [("c".data, Json.num (.finite 3))] rfl rfl rfl (by simp)

/-- C9: strategy 3's regex only matches when the literal substring
`` ```json `` followed immediately by a newline occurs in the text; on any
text without that substring the fenced-block strategy returns the empty
dict, and if additionally the other two strategies fail or yield falsy
values, the whole extractor returns the empty mapping. -/
theorem codeblock_requires_newline_after_fence (t : List Char)
    (hf : hasSubstr fenceOpen t = false)
    (h1 : failsOrFalsy (_extract_json_between_brackets t) = true)
    (h2 : failsOrFalsy (_extract_json_with_regex t) = true) :
    _extract_json_with_codeblock t = .ok (Json.obj []) ∧
    _extract_json t = .ok (Json.obj []) := by
  have h3 : _extract_json_with_codeblock t = .ok (Json.obj []) := by
    simp only [_extract_json_with_codeblock]
    rw [fenceSearch_none hf]
  refine ⟨h3, extract_none (tryMethod_none h1) (tryMethod_none h2)
    (tryMethod_none ?_)⟩
  rw [h3]
  rfl

theorem codeblock_requires_newline_after_fence_witness :
    _extract_json_with_codeblock (("\x7bx ```json \x7b\"k\":1\x7d``` y\x7d").data)
      = .ok (Json.obj []) ∧
    _extract_json (("\x7bx ```json \x7b\"k\":1\x7d``` y\x7d").data)
      = .ok (Json.obj []) :=
  codeblock_requires_newline_after_fence (("\x7bx ```json \x7b\"k\":1\x7d``` y\x7d").data)
    (by decide) rfl rfl

/-- C10 counterexample: the text `{` + `` ```json `` + newline + `1` +
newline + `` ``` `` contains a `{` and no `}`, and as the claim says
strategy 1 attempts and fails to parse the empty slice — but the extractor
does not return the empty mapping: the fenced-block strategy parses `1`
and returns it. -/
theorem bracket_guard_counterexample :
    ('\x7b' ∈ ("\x7b```json\n1\n```".data) ∧ '\x7d' ∉ ("\x7b```json\n1\n```".data)) ∧
    _extract_json ("\x7b```json\n1\n```".data) = .ok (Json.num (.finite 1)) ∧
    Json.num (.finite 1) ≠ Json.obj [] :=
  ⟨by decide, rfl, fun h => Json.noConfusion h⟩

/-- C10 (amended): for every text that contains `{` but no `}`, `rfind`
returns `-1` so the computed end index is `0`, which passes the `!= -1`
guard rather than rejecting the input; the sliced substring is empty and
fails to parse, the failure is caught inside `extract`, and — provided the
text also contains no fenced `` ```json `` block — `extract` returns the
empty mapping without raising. -/
theorem bracket_guard_empty_slice (t : List Char)
    (hb : '\x7b' ∈ t) (hn : '\x7d' ∉ t) (hf : hasSubstr fenceOpen t = false) :
    pyRfind t '\x7d' = -1 ∧
    pyFind t '\x7b' ≠ -1 ∧
    _extract_json_between_brackets t = .error .jsonDecodeError ∧
    _extract_json t = .ok (Json.obj []) := by
  obtain ⟨hrf, hs1⟩ := bracket_strategy_no_close hb hn
  obtain ⟨i, hi⟩ := firstIdx_of_mem hb
  have hfind : pyFind t '\x7b' ≠ -1 := by
    simp only [pyFind, hi]
    omega
  have hs2 : _extract_json_with_regex t = .ok (Json.obj []) := by
    simp only [_extract_json_with_regex]
    rw [regexSearchBrace_none_no_close hn]
  have hs3 : _extract_json_with_codeblock t = .ok (Json.obj []) := by
    simp only [_extract_json_with_codeblock]
    rw [fenceSearch_none hf]
  refine ⟨hrf, hfind, hs1, extract_none (tryMethod_none ?_) (tryMethod_none ?_)
    (tryMethod_none ?_)⟩
  · rw [hs1]; rfl
  · rw [hs2]; rfl
  · rw [hs3]; rfl

theorem bracket_guard_empty_slice_witness :
    pyRfind ("\x7bab".data) '\x7d' = -1 ∧
    pyFind ("\x7bab".data) '\x7b' ≠ -1 ∧
    _extract_json_between_brackets ("\x7bab".data) = .error .jsonDecodeError ∧
    _extract_json ("\x7bab".data) = .ok (Json.obj []) :=
  bracket_guard_empty_slice ("\x7bab".data) (by decide) (by decide) (by decide)

/-- C1 counterexample: `encode_image` runs before the `try` block of
`analyze_invoice`, so when reading/encoding the image raises, the exception
propagates to the caller instead of an `InvoiceDetails` record being
returned. -/
theorem analyze_invoice_encode_exception_propagates :
    analyze_invoice ⟨.error .genericError, .ok ("ok".data)⟩ = .error .genericError :=
  rfl

/-- C1 (amended): once encoding has succeeded, no exception escapes
`analyze_invoice`: for every behaviour of the remote model call (raising
with any exception, or returning any text — including texts on which
extraction or validation fail), the operation returns an `InvoiceDetails`
record.  An exception raised while reading/encoding the image, however,
propagates, because `encode_image` is called before the `try` block. -/
theorem analyze_invoice_no_exception_after_encode (enc : List Char)
    (mr : Except PyErr (List Char)) :
    ∃ d : InvoiceDetails, analyze_invoice ⟨.ok enc, mr⟩ = .ok d := by
  cases mr with
  | error e => exact ⟨_, analyze_model_error enc e⟩
  | ok t =>
    cases hv : InvoiceDetails.validate (extractVal t) with
    | ok d => exact ⟨d, analyze_ok_valid hv⟩
    | error e => exact ⟨_, analyze_ok_invalid hv⟩

theorem analyze_invoice_no_exception_after_encode_witness :
    ∃ d : InvoiceDetails, analyze_invoice ⟨.ok [], .ok ("no json".data)⟩ = .ok d :=
  analyze_invoice_no_exception_after_encode [] (.ok ("no json".data))

/-- C2 counterexample: when the image read/encode raises, `analyze_invoice`
does not return the fixed default record — the exception propagates out of
the method, because encoding happens before the `try` block. -/
theorem analyze_invoice_encode_exception_no_default :
    analyze_invoice ⟨.error .genericError, .ok []⟩ = .error .genericError ∧
    analyze_invoice ⟨.error .genericError, .ok []⟩ ≠ .ok _get_default_invoice_details :=
  ⟨rfl, fun h => Except.noConfusion h⟩

/-- C2 (amended): whenever the extracted mapping is missing a required
`InvoiceDetails` field or carries a non-numeric value in a numeric field,
and whenever the remote call itself raises, `analyze_invoice` returns
exactly the fixed default record — invoice_number `N/A`, vendor_name
`Unknown Vendor`, invoice_date `2023-01-01`, both amounts `0.00`, and one
`Sample Item` line item with all-zero numbers — never a partially populated
record.  (An exception during encoding, by contrast, propagates: see the
counterexample.) -/
theorem analyze_invoice_default_on_failure (enc t : List Char) (e : PyErr)
    (h : missingOrNonNumeric (extractVal t) = true) :
    analyze_invoice ⟨.ok enc, .ok t⟩ =
      .ok ⟨"N/A".data, "Unknown Vendor".data, "2023-01-01".data, .finite 0, .finite 0,
           [⟨"Sample Item".data, .finite 0, .finite 0, .finite 0⟩]⟩ ∧
    analyze_invoice ⟨.ok enc, .error e⟩ =
      .ok ⟨"N/A".data, "Unknown Vendor".data, "2023-01-01".data, .finite 0, .finite 0,
           [⟨"Sample Item".data, .finite 0, .finite 0, .finite 0⟩]⟩ := by
  constructor
  · cases hv : InvoiceDetails.validate (extractVal t) with
    | ok d =>
      rw [validate_ok_not_bad hv] at h
      cases h
    | error e2 => exact analyze_ok_invalid hv
  · exact analyze_model_error enc e

theorem analyze_invoice_default_on_failure_witness :
    analyze_invoice ⟨.ok [], .ok ("\x7b\x7d".data)⟩ =
      .ok ⟨"N/A".data, "Unknown Vendor".data, "2023-01-01".data, .finite 0, .finite 0,
           [⟨"Sample Item".data, .finite 0, .finite 0, .finite 0⟩]⟩ ∧
    analyze_invoice ⟨.ok [], .error .genericError⟩ =
      .ok ⟨"N/A".data, "Unknown Vendor".data, "2023-01-01".data, .finite 0, .finite 0,
           [⟨"Sample Item".data, .finite 0, .finite 0, .finite 0⟩]⟩ :=
  analyze_invoice_default_on_failure [] ("\x7b\x7d".data) .genericError rfl

/-- C7: when the model response is exactly the scenario-1 JSON text,
`analyze_invoice` returns the record with exactly those field values — one
`Widget` item with quantity 2, unit price 70.0, total 140.0 — and that
record is not the default record. -/
theorem analyze_invoice_scenario1 (enc : List Char) :
    analyze_invoice ⟨.ok enc, .ok scenario1Text⟩ =
      .ok ⟨"INV-100".data, "Acme".data, "2024-03-01".data, .finite 150, .finite 10,
           [⟨"Widget".data, .finite 2, .finite 70, .finite 140⟩]⟩ ∧
    (⟨"INV-100".data, "Acme".data, "2024-03-01".data, .finite 150, .finite 10,
      [⟨"Widget".data, .finite 2, .finite 70, .finite 140⟩]⟩ : InvoiceDetails)
      ≠ _get_default_invoice_details := by
  refine ⟨rfl, fun h => ?_⟩
  exact absurd (congrArg InvoiceDetails.invoice_number h) (by decide)

theorem analyze_invoice_scenario1_witness :
    analyze_invoice ⟨.ok [], .ok scenario1Text⟩ =
      .ok ⟨"INV-100".data, "Acme".data, "2024-03-01".data, .finite 150, .finite 10,
           [⟨"Widget".data, .finite 2, .finite 70, .finite 140⟩]⟩ :=
  (analyze_invoice_scenario1 []).1
